import Mathlib

/-!
Verification development for the cliq_backend repository: an Express backend
that authenticates users against the Meta Graph API via OAuth, persists the
resulting credential (models/UserToken.js), gates data requests on that
credential (routes/meta.js), and relays advertising-data reads through a thin
upstream client (services/metaApi.js).  The HTTP layer, network and database
are modelled by explicit parameters (pure store/oracle functions); everything
else is translated directly from the JavaScript source.
-/

namespace CliqBackend

/-- JavaScript string truthiness as used in the source (`if (x)`, `x || y`):
`null`/`undefined` (here `none`) and the empty string are falsy.  Returns the
value exactly when it is truthy. -/
def jsTruthyStr (o : Option String) : Option String :=
  match o with
  | some s => if s = "" then none else some s
  | none => none

/-- JavaScript `a || b` on nullable strings. -/
def jsStrOr (a b : Option String) : Option String :=
  match jsTruthyStr a with
  | some s => some s
  | none => b

/-! ## Credential store record — models/UserToken.js

`expiresAt` is a `Date | null`; dates are modelled by their millisecond
timestamp (an `Int`).  Only the fields the routes read are carried. -/

structure UserTokenRec where
  userId : String
  accessToken : String
  expiresAt : Option Int
  tokenType : String
  adAccountId : Option String
  deriving Repr, DecidableEq

/-- Embeds userTokenSchema.methods.isExpired (UserToken.js lines 47-52):
a `null` expiry is never expired (a Date object is always truthy, `null` is
falsy); otherwise expired iff `Date.now() >= expiresAt`. -/
def UserTokenRec.isExpired (t : UserTokenRec) (now : Int) : Bool :=
  match t.expiresAt with
  | none => false
  | some e => decide (now ≥ e)

/-! ## Request gate — routes/meta.js validateUserAndToken (lines 9-50)

The Mongoose `findOne` lookup is modelled by an explicit total function
`String → Option UserTokenRec`. -/

/-- What the middleware leaves behind: either an early error response, or the
token info it attaches to the request for the downstream handler. -/
inductive GateOutcome where
  | reject (status : Nat) (error : String) (expired : Bool)
  | accept (accessToken : String) (adAccountId : Option String)
  deriving Repr, DecidableEq

/-- Embeds validateUserAndToken: 400 when `userId` is falsy, 401 when no
credential is stored, 401 (flagged `expired`) when the stored credential is
expired; otherwise attaches `userToken.adAccountId || req.query.adAccountId`
(line 40) and the access token. -/
def validateUserAndToken (findOne : String → Option UserTokenRec) (now : Int)
    (userId? queryAdAccountId : Option String) : GateOutcome :=
  match jsTruthyStr userId? with
  | none => .reject 400 "userId is required" false
  | some userId =>
    match findOne userId with
    | none => .reject 401 "User not authenticated. Please complete OAuth flow first." false
    | some userToken =>
      if userToken.isExpired now then
        .reject 401 "Access token expired. Please re-authenticate." true
      else
        .accept userToken.accessToken (jsStrOr userToken.adAccountId queryAdAccountId)

/-! ## Upstream client — services/metaApi.js

`makeGraphApiRequest` is a single HTTP GET against the Graph API; it is
modelled by an oracle `GraphApi` mapping (accessToken, endpoint, params) to
either a normalized error message or a JSON response.  Graph responses carry
an optional `data` array of nodes and an opaque `paging` object. -/

structure GraphNode where
  id : String
  name : Option String
  created_time : Option String
  field_data : Option String
  deriving Repr, DecidableEq

structure GraphResponse where
  data : Option (List GraphNode)
  paging : Option String
  deriving Repr, DecidableEq

/-- Query parameters the metaApi wrappers pass to `makeGraphApiRequest`
(beyond the access token, which is threaded separately). -/
structure ReqParams where
  fields : Option String := none
  limit : Option Nat := none
  level : Option String := none
  date_preset : Option String := none
  time_range : Option String := none
  deriving Repr, DecidableEq

/-- The network: token, endpoint, params to response. -/
abbrev GraphApi := String → String → ReqParams → Except String GraphResponse

/-- Embeds the inline ternary used by getCampaigns/getAdSets/getSpend/getLeads:
`adAccountId.startsWith('act_') ? adAccountId : 'act_' + adAccountId`.
`startsWith` is read as prefix-of on the character sequence. -/
def normalizeAccountId (s : String) : String :=
  if "act_".data.isPrefixOf s.data then s else "act_" ++ s

/-- Embeds getCampaigns (metaApi.js): normalizes the account id and lists
`/act_.../campaigns` with a fixed field set and `params.limit || 25`. -/
def getCampaigns (api : GraphApi) (accessToken adAccountId : String)
    (plimit : Option Nat) : Except String GraphResponse :=
  api accessToken ("/" ++ normalizeAccountId adAccountId ++ "/campaigns")
    { fields := some "id,name,status,objective,daily_budget,lifetime_budget,created_time,updated_time"
      limit := some (plimit.getD 25) }

/-- Embeds getAdSets: scoped to the campaign when a campaign id is supplied,
to the normalized account otherwise. -/
def getAdSets (api : GraphApi) (accessToken adAccountId : String)
    (campaignId : Option String) (plimit : Option Nat) : Except String GraphResponse :=
  let accountId := normalizeAccountId adAccountId
  let endpoint :=
    match jsTruthyStr campaignId with
    | some cid => "/" ++ cid ++ "/adsets"
    | none => "/" ++ accountId ++ "/adsets"
  api accessToken endpoint
    { fields := some "id,name,status,campaign_id,daily_budget,lifetime_budget,billing_event,optimization_goal,created_time"
      limit := some (plimit.getD 25) }

/-- Embeds getSpend: insights on the normalized account with
`date_preset`/`level` defaults and an optional opaque time range. -/
def getSpend (api : GraphApi) (accessToken adAccountId : String)
    (datePreset level timeRange : Option String) (plimit : Option Nat) :
    Except String GraphResponse :=
  let accountId := normalizeAccountId adAccountId
  api accessToken ("/" ++ accountId ++ "/insights")
    { fields := some "campaign_id,campaign_name,spend,impressions,clicks,ctr,cpc,cpp,cpm,reach,frequency,actions"
      level := some (level.getD "campaign")
      date_preset := some (datePreset.getD "last_30d")
      time_range := timeRange
      limit := some (plimit.getD 25) }

/-- A lead record as returned from getLeads: the upstream lead node spread
together with the originating form's id and name. -/
structure TaggedLead where
  lead : GraphNode
  form_id : String
  form_name : Option String
  deriving Repr, DecidableEq

structure LeadsResult where
  data : List TaggedLead
  paging : Option String
  deriving Repr, DecidableEq

/-- Leads fetched for one form inside getLeads's loop body: the per-form
`try`/`catch` swallows a failed fetch (yielding no leads), and a missing
`data` array contributes nothing; otherwise every lead is tagged with the
form's id and name. -/
def tagLeadsOf (api : GraphApi) (accessToken : String) (form : GraphNode) :
    List TaggedLead :=
  match api accessToken ("/" ++ form.id ++ "/leads")
      { fields := some "id,created_time,field_data", limit := some 10 } with
  | .error _ => []
  | .ok formLeads =>
    match formLeads.data with
    | some ds => ds.map (fun lead => { lead := lead, form_id := form.id, form_name := form.name })
    | none => []

/-- Embeds getLeads (metaApi.js lines 273-311): lists the account's leadgen
forms (limit `params.limit || 25`), then loops over `data.slice(0, 5)`
fetching up to 10 leads per form, tagging and flattening; returns the
flattened leads with the forms listing's paging object. -/
def getLeads (api : GraphApi) (accessToken adAccountId : String)
    (plimit : Option Nat) : Except String LeadsResult :=
  let accountId := normalizeAccountId adAccountId
  match api accessToken ("/" ++ accountId ++ "/leadgen_forms")
      { fields := some "id,name,status", limit := some (plimit.getD 25) } with
  | .error e => .error e
  | .ok formsResponse =>
    let leads :=
      match formsResponse.data with
      | some forms =>
        if forms.length > 0 then
          (forms.take 5).flatMap (tagLeadsOf api accessToken)
        else []
      | none => []
    .ok { data := leads, paging := formsResponse.paging }

/-! ## Data endpoint — routes/meta.js GET /meta/campaigns (lines 56-85) -/

/-- HTTP outcome of a data endpoint: an error envelope with a status, or a
200 reshaped as `\x7b success, data, paging \x7d`. -/
inductive RouteResult where
  | err (status : Nat) (error : String)
  | ok (data : List GraphNode) (paging : Option String)
  deriving Repr, DecidableEq

/-- Embeds the /meta/campaigns handler behind validateUserAndToken: a falsy
resolved adAccountId is a 400 validation error; an upstream failure is a 500
with the normalized message; success reshapes to `\x7b data, paging \x7d`. -/
def campaignsRoute (findOne : String → Option UserTokenRec) (now : Int)
    (api : GraphApi) (userId? queryAdAccountId : Option String)
    (plimit : Option Nat) : RouteResult :=
  match validateUserAndToken findOne now userId? queryAdAccountId with
  | .reject status e _ => .err status e
  | .accept accessToken adAccountId? =>
    match jsTruthyStr adAccountId? with
    | none => .err 400 "adAccountId is required. Provide it in query params or complete OAuth to auto-detect."
    | some adAccountId =>
      match getCampaigns api accessToken adAccountId plimit with
      | .error msg => .err 500 msg
      | .ok campaigns => .ok (campaigns.data.getD []) campaigns.paging

/-! ## Status endpoint — routes/auth.js GET /auth/status (lines 200-237) -/

/-- The three distinct body shapes /auth/status can return.  `res.json`
without an explicit status sends HTTP 200, so the response is a pair of a
status code and a body. -/
inductive AuthStatusBody where
  | errEnvelope (error : String)
  | notAuthenticated (success : Bool) (authenticated : Bool) (message : String)
  | statusInfo (authenticated expired : Bool) (expiresAt : Option Int) (adAccountId : Option String)
  deriving Repr, DecidableEq

/-- Embeds GET /auth/status: 400 envelope when `userId` is falsy; a 200
`\x7b success:false, authenticated:false, message \x7d` body when no credential is
stored; otherwise a 200 status report derived from `isExpired`. -/
def authStatusRoute (findOne : String → Option UserTokenRec) (now : Int)
    (userId? : Option String) : Nat × AuthStatusBody :=
  match jsTruthyStr userId? with
  | none => (400, .errEnvelope "userId is required")
  | some userId =>
    match findOne userId with
    | none => (200, .notAuthenticated false false "User not authenticated")
    | some userToken =>
      let expired := userToken.isExpired now
      (200, .statusInfo (!expired) expired userToken.expiresAt userToken.adAccountId)

/-! ## OAuth callback — routes/auth.js GET /auth/callback (lines 68-194)

The three awaited upstream calls (code-for-token exchange, long-lived
exchange, ad-account discovery) are modelled by explicit `Except` outcomes;
`Date.now()` by a single `now` parameter.  State decoding is `decodeState`,
defined with the encoding pipeline below and forward-referenced here through
a parameter so the callback model can be stated first. -/

/-- JSON body of a token-exchange response, the fields the callback reads. -/
structure TokenRespData where
  access_token : Option String
  expires_in : Option Int
  token_type : Option String
  deriving Repr, DecidableEq

/-- Outcome of the callback: an error envelope with a status, or success
carrying the upserted credential and the response's userId/expiry. -/
inductive CallbackResult where
  | err (status : Nat) (error : String)
  | ok (stored : UserTokenRec) (userId : String) (expiresAt : Option Int)
  deriving Repr, DecidableEq

/-- Embeds lines 119-121: `expires_in ? new Date(Date.now() + expires_in*1000)
: null` (a zero `expires_in` is falsy). -/
def computeExpiresAt (now : Int) (expires_in : Option Int) : Option Int :=
  match expires_in with
  | some v => if v = 0 then none else some (now + v * 1000)
  | none => none

/-- Embeds the long-lived upgrade block (lines 123-146): a thrown exchange is
caught and the short-lived pair kept; a response without a truthy
`access_token` also keeps the short-lived pair; otherwise the upgraded token
with expiry `now + (expires_in || 5184000) * 1000`. -/
def longLivedUpgrade (now : Int) (access_token : String) (expiresAt : Option Int)
    (llExchange : Except String TokenRespData) : String × Option Int :=
  match llExchange with
  | .error _ => (access_token, expiresAt)
  | .ok ll =>
    match jsTruthyStr ll.access_token with
    | none => (access_token, expiresAt)
    | some llToken =>
      let llExpiresIn :=
        match ll.expires_in with
        | some v => if v = 0 then 5184000 else v
        | none => 5184000
      (llToken, some (now + llExpiresIn * 1000))

/-- Embeds GET /auth/callback given a state decoder and the outcomes of the
three upstream calls.  The ad-account discovery block (lines 148-164) is
given as the discovered `data` array's ids; a thrown discovery leaves the
account unset. -/
def oauthCallback (decode : String → Option String) (now : Int)
    (oauthError? code? state? : Option String)
    (tokenExchange : Except String TokenRespData)
    (llExchange : Except String TokenRespData)
    (adAccounts : Except String (List String)) : CallbackResult :=
  match oauthError? with
  | some e => .err 400 ("OAuth error: " ++ e)
  | none =>
    match jsTruthyStr code?, jsTruthyStr state? with
    | some _, some state =>
      (match decode state with
      | none => .err 400 "Invalid state parameter"
      | some userId =>
        match tokenExchange with
        | .error e => .err 500 e
        | .ok tr =>
          match jsTruthyStr tr.access_token with
          | none => .err 400 "Failed to obtain access token"
          | some access_token =>
            let expiresAt := computeExpiresAt now tr.expires_in
            let upgraded := longLivedUpgrade now access_token expiresAt llExchange
            let adAccountId :=
              match adAccounts with
              | .error _ => none
              | .ok ids => ids.head?
            let stored : UserTokenRec :=
              { userId := userId
                accessToken := upgraded.1
                expiresAt := upgraded.2
                tokenType := (jsTruthyStr tr.token_type).getD "Bearer"
                adAccountId := adAccountId }
            .ok stored userId upgraded.2)
    | _, _ => .err 400 "Missing code or state parameter"

/-! ## State parameter — routes/auth.js lines 32-33 (encode) and 86-96 (decode)

Encoding: `Buffer.from(JSON.stringify(\x7b userId \x7d)).toString('base64')` —
JSON-serialize the one-field envelope, UTF-8 encode, base64 encode.
Decoding: `JSON.parse(Buffer.from(state, 'base64').toString()).userId`.
`JSON.stringify` string quoting and standard base64/UTF-8 are written out
below; the decoder components are partial models of their library
counterparts (`JSON.parse` restricted to the envelope shape it must accept,
strict decoders where Node's are forgiving), which is sound for the
round-trip property the callback relies on. -/

/-- Lower-case hex digit, as emitted by `JSON.stringify`'s `\u00XX` escapes. -/
def hexDigitChar (n : Nat) : Char :=
  if n < 10 then Char.ofNat (48 + n) else Char.ofNat (87 + n)

/-- How `JSON.stringify` quotes one character: `"` and `\` get a backslash
escape, the named control characters their short escapes, the remaining
control characters a `\u00XX` escape, and everything else stands for itself. -/
def jsonEscapeChar (c : Char) : List Char :=
  if c = '"' then ['\\', '"']
  else if c = '\\' then ['\\', '\\']
  else if c.toNat = 8 then ['\\', 'b']
  else if c.toNat = 9 then ['\\', 't']
  else if c.toNat = 10 then ['\\', 'n']
  else if c.toNat = 12 then ['\\', 'f']
  else if c.toNat = 13 then ['\\', 'r']
  else if c.toNat < 32 then
    ['\\', 'u', '0', '0', hexDigitChar (c.toNat / 16), hexDigitChar (c.toNat % 16)]
  else [c]

def jsonEscapeBody : List Char → List Char
  | [] => []
  | c :: cs => jsonEscapeChar c ++ jsonEscapeBody cs

/-- The characters `JSON.stringify(\x7b userId: ... \x7d)` emits up to the opening
quote of the value. -/
def envelopeOpen : List Char :=
  ['\x7b', '"', 'u', 's', 'e', 'r', 'I', 'd', '"', ':', '"']

/-- `JSON.stringify(\x7b userId \x7d)` on the auth/start line 33 envelope. -/
def jsonStringifyEnvelope (u : List Char) : List Char :=
  envelopeOpen ++ jsonEscapeBody u ++ ['"', '\x7d']

/-- Numeric value of a hex digit, either case, as `JSON.parse` reads it. -/
def hexVal (c : Char) : Option Nat :=
  if 48 ≤ c.toNat ∧ c.toNat ≤ 57 then some (c.toNat - 48)
  else if 97 ≤ c.toNat ∧ c.toNat ≤ 102 then some (c.toNat - 87)
  else if 65 ≤ c.toNat ∧ c.toNat ≤ 70 then some (c.toNat - 55)
  else none

/-- The single-character JSON escapes `JSON.parse` accepts. -/
def jsonUnescapeShort (e : Char) : Option Char :=
  if e = '"' then some '"'
  else if e = '\\' then some '\\'
  else if e = '/' then some '/'
  else if e = 'b' then some (Char.ofNat 8)
  else if e = 'f' then some (Char.ofNat 12)
  else if e = 'n' then some (Char.ofNat 10)
  else if e = 'r' then some (Char.ofNat 13)
  else if e = 't' then some (Char.ofNat 9)
  else none

/-- JSON string-body scanner: consumes characters up to an unescaped closing
quote, resolving escapes, and returns the decoded content together with the
input remaining after the quote.  Unpaired `\u` surrogate escapes are
rejected rather than combined (the encoder never emits them). -/
def parseJsonStringBody : List Char → Option (List Char × List Char)
  | [] => none
  | c :: rest =>
    if c = '"' then some ([], rest)
    else if c = '\\' then
      match rest with
      | [] => none
      | e :: rest2 =>
        if e = 'u' then
          match rest2 with
          | h1 :: h2 :: h3 :: h4 :: rest3 =>
            match hexVal h1, hexVal h2, hexVal h3, hexVal h4 with
            | some v1, some v2, some v3, some v4 =>
              let v := ((v1 * 16 + v2) * 16 + v3) * 16 + v4
              if Nat.isValidChar v then
                match parseJsonStringBody rest3 with
                | some (s, r) => some (Char.ofNat v :: s, r)
                | none => none
              else none
            | _, _, _, _ => none
          | _ => none
        else
          match jsonUnescapeShort e with
          | none => none
          | some c2 =>
            match parseJsonStringBody rest2 with
            | some (s, r) => some (c2 :: s, r)
            | none => none
    else if c.toNat < 32 then none
    else
      match parseJsonStringBody rest with
      | some (s, r) => some (c :: s, r)
      | none => none

/-- Consume an exact literal from the front of the input. -/
def stripLiteral : List Char → List Char → Option (List Char)
  | [], s => some s
  | _ :: _, [] => none
  | p :: ps, c :: cs => if c = p then stripLiteral ps cs else none

/-- Partial model of `JSON.parse(...).userId` on the callback (lines 89-90):
accepts exactly the envelope shape the start endpoint produces and yields the
`userId` value. -/
def parseEnvelope (s : List Char) : Option (List Char) :=
  match stripLiteral envelopeOpen s with
  | none => none
  | some body =>
    match parseJsonStringBody body with
    | none => none
    | some (v, rest) => if rest = ['\x7d'] then some v else none

/-- UTF-8 bytes of one scalar value, as `Buffer.from(string)` produces. -/
def utf8EncodeChar (c : Char) : List Nat :=
  let n := c.toNat
  if n < 128 then [n]
  else if n < 2048 then [192 + n / 64, 128 + n % 64]
  else if n < 65536 then [224 + n / 4096, 128 + (n / 64) % 64, 128 + n % 64]
  else [240 + n / 262144, 128 + (n / 4096) % 64, 128 + (n / 64) % 64, 128 + n % 64]

def utf8Encode : List Char → List Nat
  | [] => []
  | c :: cs => utf8EncodeChar c ++ utf8Encode cs

/-- One scalar value of strict UTF-8: decode the sequence starting with byte
`b`, returning the character and the remaining bytes. -/
def utf8DecodeOne (b : Nat) (bs : List Nat) : Option (Char × List Nat) :=
  if b < 128 then some (Char.ofNat b, bs)
  else if b < 192 then none
  else if b < 224 then
    match bs with
    | b1 :: bs1 =>
      if 128 ≤ b1 ∧ b1 < 192 then
        let n := (b - 192) * 64 + (b1 - 128)
        if 128 ≤ n then some (Char.ofNat n, bs1) else none
      else none
    | [] => none
  else if b < 240 then
    match bs with
    | b1 :: b2 :: bs2 =>
      if (128 ≤ b1 ∧ b1 < 192) ∧ (128 ≤ b2 ∧ b2 < 192) then
        let n := (b - 224) * 4096 + (b1 - 128) * 64 + (b2 - 128)
        if 2048 ≤ n ∧ (n < 55296 ∨ 57343 < n) then some (Char.ofNat n, bs2) else none
      else none
    | _ => none
  else if b < 248 then
    match bs with
    | b1 :: b2 :: b3 :: bs3 =>
      if (128 ≤ b1 ∧ b1 < 192) ∧ (128 ≤ b2 ∧ b2 < 192) ∧ (128 ≤ b3 ∧ b3 < 192) then
        let n := (b - 240) * 262144 + (b1 - 128) * 4096 + (b2 - 128) * 64 + (b3 - 128)
        if 65536 ≤ n ∧ n < 1114112 then some (Char.ofNat n, bs3) else none
      else none
    | _ => none
  else none

theorem utf8DecodeOne_length (b : Nat) (bs : List Nat) (c : Char) (rest : List Nat)
    (h : utf8DecodeOne b bs = some (c, rest)) : rest.length ≤ bs.length := by
  rw [utf8DecodeOne.eq_def] at h
  split at h
  · simp only [Option.some.injEq, Prod.mk.injEq] at h
    rw [h.2]
  split at h
  · exact absurd h (by simp)
  split at h
  · split at h
    next b1 bs1 =>
      split at h
      · dsimp only at h
        split at h
        · simp only [Option.some.injEq, Prod.mk.injEq] at h
          rw [← h.2]
          simp only [List.length_cons]
          omega
        · exact absurd h (by simp)
      · exact absurd h (by simp)
    next => exact absurd h (by simp)
  split at h
  · split at h
    next b1 b2 bs2 =>
      split at h
      · dsimp only at h
        split at h
        · simp only [Option.some.injEq, Prod.mk.injEq] at h
          rw [← h.2]
          simp only [List.length_cons]
          omega
        · exact absurd h (by simp)
      · exact absurd h (by simp)
    next => exact absurd h (by simp)
  split at h
  · split at h
    next b1 b2 b3 bs3 =>
      split at h
      · dsimp only at h
        split at h
        · simp only [Option.some.injEq, Prod.mk.injEq] at h
          rw [← h.2]
          simp only [List.length_cons]
          omega
        · exact absurd h (by simp)
      · exact absurd h (by simp)
    next => exact absurd h (by simp)
  · exact absurd h (by simp)

/-- Strict UTF-8 decoder (where `buffer.toString()` would substitute
replacement characters on malformed input, this model rejects — sound for
decoding what `utf8Encode` produced). -/
def utf8Decode (l : List Nat) : Option (List Char) :=
  match l with
  | [] => some []
  | b :: bs =>
    match h : utf8DecodeOne b bs with
    | none => none
    | some (c, rest) =>
      match utf8Decode rest with
      | some cs => some (c :: cs)
      | none => none
termination_by l.length
decreasing_by
  have := utf8DecodeOne_length b bs c rest h
  simp only [List.length_cons]
  omega

/-- The standard base64 alphabet used by `Buffer.toString('base64')`. -/
def base64Alphabet : List Char :=
  "ABCDEFGHIJKLMNOPQRSTUVWXYZabcdefghijklmnopqrstuvwxyz0123456789+/".data

def base64Char (n : Nat) : Char := base64Alphabet.getD n 'A'

def base64Val (c : Char) : Option Nat := base64Alphabet.indexOf? c

/-- Base64 encoding with `=` padding, three bytes to four characters. -/
def base64Encode : List Nat → List Char
  | [] => []
  | [a] => [base64Char (a / 4), base64Char (a % 4 * 16), '=', '=']
  | [a, b] => [base64Char (a / 4), base64Char (a % 4 * 16 + b / 16), base64Char (b % 16 * 4), '=']
  | a :: b :: c :: rest =>
    base64Char (a / 4) :: base64Char (a % 4 * 16 + b / 16) ::
      base64Char (b % 16 * 4 + c / 64) :: base64Char (c % 64) :: base64Encode rest

/-- Base64 decoder on well-formed padded input (where `Buffer.from(s,
'base64')` is forgiving, this model rejects — sound for decoding what
`base64Encode` produced). -/
def base64Decode : List Char → Option (List Nat)
  | [] => some []
  | c1 :: c2 :: c3 :: c4 :: rest =>
    (match base64Val c1, base64Val c2 with
    | some v1, some v2 =>
      if c3 = '=' then
        if c4 = '=' ∧ rest = [] then some [v1 * 4 + v2 / 16] else none
      else
        match base64Val c3 with
        | some v3 =>
          if c4 = '=' then
            if rest = [] then some [v1 * 4 + v2 / 16, v2 % 16 * 16 + v3 / 4] else none
          else
            match base64Val c4 with
            | some v4 =>
              match base64Decode rest with
              | some tail =>
                some ((v1 * 4 + v2 / 16) :: (v2 % 16 * 16 + v3 / 4) :: (v3 % 4 * 64 + v4) :: tail)
              | none => none
            | none => none
        | none => none
    | _, _ => none)
  | _ => none

/-- Embeds auth.js line 33:
`Buffer.from(JSON.stringify(\x7b userId \x7d)).toString('base64')`. -/
def encodeState (userId : String) : String :=
  String.mk (base64Encode (utf8Encode (jsonStringifyEnvelope userId.data)))

/-- Embeds auth.js lines 89-90:
`JSON.parse(Buffer.from(state, 'base64').toString()).userId`, with parse
failure (the `catch` on line 91) as `none`. -/
def decodeState (state : String) : Option String :=
  match base64Decode state.data with
  | none => none
  | some bytes =>
    match utf8Decode bytes with
    | none => none
    | some chars =>
      match parseEnvelope chars with
      | none => none
      | some u => some (String.mk u)

/-! ## Round-trip lemmas for the state-parameter pipeline -/

theorem stripLiteral_append : ∀ (l s : List Char), stripLiteral l (l ++ s) = some s
  | [], s => rfl
  | p :: ps, s => by simp [stripLiteral, stripLiteral_append ps s]

theorem hexVal_hexDigitChar : ∀ n < 16, hexVal (hexDigitChar n) = some n := by decide

theorem char_toNat_valid (c : Char) :
    c.toNat < 55296 ∨ (57343 < c.toNat ∧ c.toNat < 1114112) := by
  have h := c.valid
  unfold UInt32.isValidChar at h
  rcases h with h | ⟨h1, h2⟩
  · exact Or.inl h
  · exact Or.inr ⟨h1, h2⟩

theorem parseJsonStringBody_escapeChar (c : Char) (t : List Char) :
    parseJsonStringBody (jsonEscapeChar c ++ t) =
      match parseJsonStringBody t with
      | some (s, r) => some (c :: s, r)
      | none => none := by
  by_cases h1 : c = '"'
  · subst h1
    simp +decide only [jsonEscapeChar, List.cons_append, List.nil_append]
    rw [parseJsonStringBody.eq_def]
    simp +decide [jsonUnescapeShort]
  by_cases h2 : c = '\\'
  · subst h2
    simp +decide only [jsonEscapeChar, List.cons_append, List.nil_append]
    rw [parseJsonStringBody.eq_def]
    simp +decide [jsonUnescapeShort]
  by_cases h3 : c.toNat = 8
  · have hc : c = Char.ofNat 8 := by rw [← h3, Char.ofNat_toNat]
    subst hc
    simp +decide only [jsonEscapeChar, List.cons_append, List.nil_append]
    rw [parseJsonStringBody.eq_def]
    simp +decide [jsonUnescapeShort]
  by_cases h4 : c.toNat = 9
  · have hc : c = Char.ofNat 9 := by rw [← h4, Char.ofNat_toNat]
    subst hc
    simp +decide only [jsonEscapeChar, List.cons_append, List.nil_append]
    rw [parseJsonStringBody.eq_def]
    simp +decide [jsonUnescapeShort]
  by_cases h5 : c.toNat = 10
  · have hc : c = Char.ofNat 10 := by rw [← h5, Char.ofNat_toNat]
    subst hc
    simp +decide only [jsonEscapeChar, List.cons_append, List.nil_append]
    rw [parseJsonStringBody.eq_def]
    simp +decide [jsonUnescapeShort]
  by_cases h6 : c.toNat = 12
  · have hc : c = Char.ofNat 12 := by rw [← h6, Char.ofNat_toNat]
    subst hc
    simp +decide only [jsonEscapeChar, List.cons_append, List.nil_append]
    rw [parseJsonStringBody.eq_def]
    simp +decide [jsonUnescapeShort]
  by_cases h7 : c.toNat = 13
  · have hc : c = Char.ofNat 13 := by rw [← h7, Char.ofNat_toNat]
    subst hc
    simp +decide only [jsonEscapeChar, List.cons_append, List.nil_append]
    rw [parseJsonStringBody.eq_def]
    simp +decide [jsonUnescapeShort]
  by_cases h8 : c.toNat < 32
  · have hdiv : c.toNat / 16 < 16 := by omega
    have hmod : c.toNat % 16 < 16 := by omega
    have e1 := hexVal_hexDigitChar (c.toNat / 16) hdiv
    have e2 := hexVal_hexDigitChar (c.toNat % 16) hmod
    have e0 : hexVal '0' = some 0 := by decide
    simp only [jsonEscapeChar, if_neg h1, if_neg h2, if_neg h3, if_neg h4, if_neg h5,
      if_neg h6, if_neg h7, if_pos h8, List.cons_append, List.nil_append]
    rw [parseJsonStringBody.eq_def]
    simp +decide only [e0, e1, e2, if_true, if_false, ite_true, ite_false]
    have hn : ((0 * 16 + 0) * 16 + c.toNat / 16) * 16 + c.toNat % 16 = c.toNat := by omega
    rw [hn]
    have hval : Nat.isValidChar c.toNat := Or.inl (by omega)
    rw [if_pos hval, Char.ofNat_toNat]
  · simp only [jsonEscapeChar, if_neg h1, if_neg h2, if_neg h3, if_neg h4, if_neg h5,
      if_neg h6, if_neg h7, if_neg h8, List.cons_append, List.nil_append]
    rw [parseJsonStringBody.eq_def]
    simp [h1, h2, h8]

theorem parseJsonStringBody_escapeBody : ∀ (u rest : List Char),
    parseJsonStringBody (jsonEscapeBody u ++ '"' :: rest) = some (u, rest)
  | [], rest => by
    rw [jsonEscapeBody, List.nil_append, parseJsonStringBody.eq_def]
    simp
  | c :: cs, rest => by
    rw [jsonEscapeBody, List.append_assoc, parseJsonStringBody_escapeChar,
      parseJsonStringBody_escapeBody cs rest]

theorem parseEnvelope_stringify (u : List Char) :
    parseEnvelope (jsonStringifyEnvelope u) = some u := by
  rw [parseEnvelope, jsonStringifyEnvelope, List.append_assoc, stripLiteral_append]
  dsimp only
  rw [parseJsonStringBody_escapeBody]
  simp

theorem utf8DecodeOne_encodeChar (c : Char) (bs : List Nat) :
    ∃ b tail, utf8EncodeChar c = b :: tail ∧
      utf8DecodeOne b (tail ++ bs) = some (c, bs) := by
  have hv := char_toNat_valid c
  rw [utf8EncodeChar]
  by_cases h1 : c.toNat < 128
  · refine ⟨c.toNat, [], by rw [if_pos h1], ?_⟩
    rw [List.nil_append, utf8DecodeOne.eq_def, if_pos h1, Char.ofNat_toNat]
  by_cases h2 : c.toNat < 2048
  · refine ⟨192 + c.toNat / 64, [128 + c.toNat % 64], by rw [if_neg h1, if_pos h2], ?_⟩
    rw [List.cons_append, List.nil_append, utf8DecodeOne.eq_def]
    have g1 : ¬ 192 + c.toNat / 64 < 128 := by omega
    have g2 : ¬ 192 + c.toNat / 64 < 192 := by omega
    have g3 : 192 + c.toNat / 64 < 224 := by omega
    rw [if_neg g1, if_neg g2, if_pos g3]
    dsimp only
    have g4 : 128 ≤ 128 + c.toNat % 64 ∧ 128 + c.toNat % 64 < 192 := by omega
    rw [if_pos g4]
    have g5 : (192 + c.toNat / 64 - 192) * 64 + (128 + c.toNat % 64 - 128) = c.toNat := by omega
    simp only [g5]
    have g6 : 128 ≤ c.toNat := by omega
    rw [if_pos g6, Char.ofNat_toNat]
  by_cases h3 : c.toNat < 65536
  · refine ⟨224 + c.toNat / 4096, [128 + c.toNat / 64 % 64, 128 + c.toNat % 64],
      by rw [if_neg h1, if_neg h2, if_pos h3], ?_⟩
    rw [List.cons_append, List.cons_append, List.nil_append, utf8DecodeOne.eq_def]
    have g1 : ¬ 224 + c.toNat / 4096 < 128 := by omega
    have g2 : ¬ 224 + c.toNat / 4096 < 192 := by omega
    have g3 : ¬ 224 + c.toNat / 4096 < 224 := by omega
    have g4 : 224 + c.toNat / 4096 < 240 := by omega
    rw [if_neg g1, if_neg g2, if_neg g3, if_pos g4]
    dsimp only
    have g5 : (128 ≤ 128 + c.toNat / 64 % 64 ∧ 128 + c.toNat / 64 % 64 < 192) ∧
        (128 ≤ 128 + c.toNat % 64 ∧ 128 + c.toNat % 64 < 192) := by omega
    rw [if_pos g5]
    have g6 : (224 + c.toNat / 4096 - 224) * 4096 + (128 + c.toNat / 64 % 64 - 128) * 64 +
        (128 + c.toNat % 64 - 128) = c.toNat := by omega
    simp only [g6]
    have g7 : 2048 ≤ c.toNat ∧ (c.toNat < 55296 ∨ 57343 < c.toNat) := by omega
    rw [if_pos g7, Char.ofNat_toNat]
  · refine ⟨240 + c.toNat / 262144,
      [128 + c.toNat / 4096 % 64, 128 + c.toNat / 64 % 64, 128 + c.toNat % 64],
      by rw [if_neg h1, if_neg h2, if_neg h3], ?_⟩
    have hup : c.toNat < 1114112 := by omega
    rw [List.cons_append, List.cons_append, List.cons_append, List.nil_append, utf8DecodeOne.eq_def]
    have g1 : ¬ 240 + c.toNat / 262144 < 128 := by omega
    have g2 : ¬ 240 + c.toNat / 262144 < 192 := by omega
    have g3 : ¬ 240 + c.toNat / 262144 < 224 := by omega
    have g4 : ¬ 240 + c.toNat / 262144 < 240 := by omega
    have g5 : 240 + c.toNat / 262144 < 248 := by omega
    rw [if_neg g1, if_neg g2, if_neg g3, if_neg g4, if_pos g5]
    dsimp only
    have g6 : (128 ≤ 128 + c.toNat / 4096 % 64 ∧ 128 + c.toNat / 4096 % 64 < 192) ∧
        (128 ≤ 128 + c.toNat / 64 % 64 ∧ 128 + c.toNat / 64 % 64 < 192) ∧
        (128 ≤ 128 + c.toNat % 64 ∧ 128 + c.toNat % 64 < 192) := by omega
    rw [if_pos g6]
    have g7 : (240 + c.toNat / 262144 - 240) * 262144 + (128 + c.toNat / 4096 % 64 - 128) * 4096 +
        (128 + c.toNat / 64 % 64 - 128) * 64 + (128 + c.toNat % 64 - 128) = c.toNat := by omega
    simp only [g7]
    have g8 : 65536 ≤ c.toNat ∧ c.toNat < 1114112 := by omega
    rw [if_pos g8, Char.ofNat_toNat]

theorem utf8Decode_encodeChar (c : Char) (bs : List Nat) :
    utf8Decode (utf8EncodeChar c ++ bs) =
      match utf8Decode bs with
      | some cs => some (c :: cs)
      | none => none := by
  obtain ⟨b, tail, hene, hdec⟩ := utf8DecodeOne_encodeChar c bs
  rw [hene, List.cons_append, utf8Decode.eq_def]
  dsimp only
  split
  next heq => rw [hdec] at heq; exact absurd heq (by simp)
  next c' rest heq =>
    rw [hdec] at heq
    simp only [Option.some.injEq, Prod.mk.injEq] at heq
    rw [heq.1, heq.2]

theorem utf8Decode_encode : ∀ (u : List Char), utf8Decode (utf8Encode u) = some u
  | [] => by rw [utf8Encode, utf8Decode.eq_def]
  | c :: cs => by
    rw [utf8Encode, utf8Decode_encodeChar, utf8Decode_encode cs]

theorem utf8EncodeChar_lt_256 (c : Char) : ∀ b ∈ utf8EncodeChar c, b < 256 := by
  have hv := char_toNat_valid c
  rw [utf8EncodeChar]
  by_cases h1 : c.toNat < 128
  · rw [if_pos h1]
    intro b hb
    simp at hb
    omega
  by_cases h2 : c.toNat < 2048
  · rw [if_neg h1, if_pos h2]
    intro b hb
    simp at hb
    rcases hb with h | h <;> omega
  by_cases h3 : c.toNat < 65536
  · rw [if_neg h1, if_neg h2, if_pos h3]
    intro b hb
    simp at hb
    rcases hb with h | h | h <;> omega
  · rw [if_neg h1, if_neg h2, if_neg h3]
    have hup : c.toNat < 1114112 := by omega
    intro b hb
    simp at hb
    rcases hb with h | h | h | h <;> omega

theorem utf8Encode_lt_256 : ∀ (u : List Char), ∀ b ∈ utf8Encode u, b < 256
  | [] => by simp [utf8Encode]
  | c :: cs => by
    rw [utf8Encode]
    intro b hb
    rcases List.mem_append.mp hb with h | h
    · exact utf8EncodeChar_lt_256 c b h
    · exact utf8Encode_lt_256 cs b h

theorem base64Val_base64Char : ∀ i < 64, base64Val (base64Char i) = some i := by decide

theorem base64Char_ne_pad : ∀ i < 64, base64Char i ≠ '=' := by decide

theorem base64Decode_encode : ∀ (l : List Nat), (∀ b ∈ l, b < 256) →
    base64Decode (base64Encode l) = some l
  | [], _ => rfl
  | [a], h => by
    have ha : a < 256 := h a (by simp)
    rw [base64Encode, base64Decode.eq_def]
    dsimp only
    rw [base64Val_base64Char (a / 4) (by omega), base64Val_base64Char (a % 4 * 16) (by omega)]
    have e1 : a / 4 * 4 + a % 4 * 16 / 16 = a := by omega
    simp
    omega
  | [a, b], h => by
    have ha : a < 256 := h a (by simp)
    have hb : b < 256 := h b (by simp)
    rw [base64Encode, base64Decode.eq_def]
    dsimp only
    rw [base64Val_base64Char (a / 4) (by omega),
      base64Val_base64Char (a % 4 * 16 + b / 16) (by omega),
      base64Val_base64Char (b % 16 * 4) (by omega)]
    have n1 : ¬ base64Char (b % 16 * 4) = '=' := base64Char_ne_pad (b % 16 * 4) (by omega)
    simp [n1]
    omega
  | a :: b :: c :: rest, h => by
    have ha : a < 256 := h a (by simp)
    have hb : b < 256 := h b (by simp)
    have hc : c < 256 := h c (by simp)
    have ih := base64Decode_encode rest (fun x hx => h x (by simp [hx]))
    rw [base64Encode, base64Decode.eq_def]
    dsimp only
    rw [base64Val_base64Char (a / 4) (by omega),
      base64Val_base64Char (a % 4 * 16 + b / 16) (by omega),
      base64Val_base64Char (b % 16 * 4 + c / 64) (by omega),
      base64Val_base64Char (c % 64) (by omega)]
    have n1 : ¬ base64Char (b % 16 * 4 + c / 64) = '=' :=
      base64Char_ne_pad (b % 16 * 4 + c / 64) (by omega)
    have n2 : ¬ base64Char (c % 64) = '=' := base64Char_ne_pad (c % 64) (by omega)
    simp [n1, n2, ih]
    omega

theorem decodeState_encodeState (u : String) : decodeState (encodeState u) = some u := by
  rw [decodeState, encodeState]
  have hd : (String.mk (base64Encode (utf8Encode (jsonStringifyEnvelope u.data)))).data =
      base64Encode (utf8Encode (jsonStringifyEnvelope u.data)) := rfl
  rw [hd, base64Decode_encode _ (utf8Encode_lt_256 _)]
  dsimp only
  rw [utf8Decode_encode]
  dsimp only
  rw [parseEnvelope_stringify]

/-! ## Claim theorems -/

/-- C3: a credential with no expiresAt is never reported expired; one whose
expiresAt lies strictly before the current time is reported expired; one
whose expiresAt lies strictly after the current time is not. -/
theorem isExpired_trichotomy (t : UserTokenRec) (now : Int) :
    (t.expiresAt = none → t.isExpired now = false) ∧
    (∀ e, t.expiresAt = some e → e < now → t.isExpired now = true) ∧
    (∀ e, t.expiresAt = some e → now < e → t.isExpired now = false) := by
  refine ⟨fun h => ?_, fun e h hlt => ?_, fun e h hlt => ?_⟩ <;>
    simp [UserTokenRec.isExpired, h] <;> omega

/-- C3 witness: the three cases at concrete credentials and times. -/
theorem isExpired_trichotomy_witness :
    UserTokenRec.isExpired
      { userId := "u", accessToken := "t", expiresAt := none, tokenType := "Bearer",
        adAccountId := none } 7 = false ∧
    UserTokenRec.isExpired
      { userId := "u", accessToken := "t", expiresAt := some 5, tokenType := "Bearer",
        adAccountId := none } 9 = true ∧
    UserTokenRec.isExpired
      { userId := "u", accessToken := "t", expiresAt := some 12, tokenType := "Bearer",
        adAccountId := none } 9 = false :=
  ⟨(isExpired_trichotomy _ 7).1 rfl,
   (isExpired_trichotomy _ 9).2.1 5 rfl (by decide),
   (isExpired_trichotomy _ 9).2.2 12 rfl (by decide)⟩

/-- Store holding one credential with a stored ad-account id, used to probe
the Request Gate's resolution order. -/
def cxStore : String → Option UserTokenRec := fun uid =>
  if uid = "user-1" then
    some { userId := "user-1", accessToken := "tok", expiresAt := none,
           tokenType := "Bearer", adAccountId := some "act_111" }
  else none

/-- C1 counterexample: with a stored ad-account id "act_111" and an explicit
per-request parameter "act_222", the gate exposes the stored value, not the
parameter — the stored value wins, contradicting the claimed override. -/
theorem validateUserAndToken_param_does_not_override :
    validateUserAndToken cxStore 0 (some "user-1") (some "act_222") =
      .accept "tok" (some "act_111") ∧ ("act_111" : String) ≠ "act_222" :=
  ⟨rfl, by decide⟩

/-- C1 (amended): for a passing request, the ad-account id exposed to the
handler is the stored value whenever the stored credential carries a
non-empty one — even when an explicit adAccountId parameter is supplied; the
per-request parameter is exposed only when no (non-empty) stored value
exists; with no parameter supplied the stored value is exposed. -/
theorem validateUserAndToken_adAccount_resolution
    (findOne : String → Option UserTokenRec) (now : Int) (uid : String)
    (tok : UserTokenRec) (q : Option String)
    (hu : uid ≠ "") (hf : findOne uid = some tok) (he : tok.isExpired now = false) :
    (∀ a, tok.adAccountId = some a → a ≠ "" →
      validateUserAndToken findOne now (some uid) q = .accept tok.accessToken (some a)) ∧
    (jsTruthyStr tok.adAccountId = none →
      validateUserAndToken findOne now (some uid) q = .accept tok.accessToken q) := by
  constructor
  · intro a ha hane
    simp [validateUserAndToken, jsTruthyStr, hu, hf, he, jsStrOr, ha, hane]
  · intro ha
    simp [validateUserAndToken, jsTruthyStr, hu, hf, he, jsStrOr] at *
    simp [ha]

/-- C1 witness: both amended branches at concrete inputs. -/
theorem validateUserAndToken_adAccount_resolution_witness :
    validateUserAndToken cxStore 0 (some "user-1") (some "act_222") =
      .accept "tok" (some "act_111") :=
  (validateUserAndToken_adAccount_resolution cxStore 0 "user-1"
    { userId := "user-1", accessToken := "tok", expiresAt := none,
      tokenType := "Bearer", adAccountId := some "act_111" }
    (some "act_222") (by decide) rfl rfl).1 "act_111" rfl (by decide)

/-- Upstream oracle that always fails; data-endpoint claims below never reach
it. -/
def stubApi : GraphApi := fun _ _ _ => .error "unreachable"

/-- Store holding one valid credential without an ad-account id. -/
def c4Store : String → Option UserTokenRec := fun uid =>
  if uid = "u-auth" then
    some { userId := "u-auth", accessToken := "tk", expiresAt := none,
           tokenType := "Bearer", adAccountId := none }
  else none

/-- C4: on /meta/campaigns, an unknown userId yields 401 (not 500) with the
not-authenticated message; a valid non-expired credential with neither a
stored nor a query ad-account id resolving yields the 400 validation error,
not a 401 or 500. -/
theorem campaignsRoute_auth_and_validation
    (findOne : String → Option UserTokenRec) (now : Int) (api : GraphApi)
    (uid : String) (q : Option String) (plimit : Option Nat) (hu : uid ≠ "") :
    (findOne uid = none →
      campaignsRoute findOne now api (some uid) q plimit =
        .err 401 "User not authenticated. Please complete OAuth flow first.") ∧
    (∀ tok, findOne uid = some tok → tok.isExpired now = false →
      jsTruthyStr tok.adAccountId = none → jsTruthyStr q = none →
      campaignsRoute findOne now api (some uid) q plimit =
        .err 400 "adAccountId is required. Provide it in query params or complete OAuth to auto-detect.") := by
  constructor
  · intro hf
    simp [campaignsRoute, validateUserAndToken, jsTruthyStr, hu, hf]
  · intro tok hf he hstored hq
    simp [campaignsRoute, validateUserAndToken, jsTruthyStr, hu, hf, he, jsStrOr] at *
    simp [hstored, hq]

/-- C4 witness: both branches at concrete inputs. -/
theorem campaignsRoute_auth_and_validation_witness :
    campaignsRoute c4Store 0 stubApi (some "ghost") none none =
      .err 401 "User not authenticated. Please complete OAuth flow first." ∧
    campaignsRoute c4Store 0 stubApi (some "u-auth") none none =
      .err 400 "adAccountId is required. Provide it in query params or complete OAuth to auto-detect." :=
  ⟨(campaignsRoute_auth_and_validation c4Store 0 stubApi "ghost" none none (by decide)).1 rfl,
   (campaignsRoute_auth_and_validation c4Store 0 stubApi "u-auth" none none (by decide)).2
     { userId := "u-auth", accessToken := "tk", expiresAt := none,
       tokenType := "Bearer", adAccountId := none } rfl rfl rfl rfl⟩

/-- C9: /auth/status for a userId with no stored credential responds HTTP 200
with the distinct success:false / authenticated:false / message body — not a
401 and not the uniform error envelope. -/
theorem authStatusRoute_unauthenticated
    (findOne : String → Option UserTokenRec) (now : Int) (uid : String)
    (hu : uid ≠ "") (hf : findOne uid = none) :
    authStatusRoute findOne now (some uid) =
      (200, .notAuthenticated false false "User not authenticated") := by
  simp [authStatusRoute, jsTruthyStr, hu, hf]

/-- C9 witness: concrete empty store. -/
theorem authStatusRoute_unauthenticated_witness :
    authStatusRoute (fun _ => none) 5 (some "u1") =
      (200, .notAuthenticated false false "User not authenticated") :=
  authStatusRoute_unauthenticated (fun _ => none) 5 "u1" (by decide) rfl

/-- C5: decoding the OAuth state parameter is a left inverse of encoding it —
for every userId, the callback's decode of the start endpoint's encode
reproduces the userId exactly. -/
theorem decodeState_leftInverse_encodeState (userId : String) :
    decodeState (encodeState userId) = some userId :=
  decodeState_encodeState userId

/-- C6: account-id normalization as used by the upstream-client operations —
an id lacking the act_ prefix gets it prepended, one already carrying it
passes through unchanged, normalization is idempotent, and each operation
(campaigns, ad sets, spend, leads) is invariant under pre-normalizing its
ad-account id. -/
theorem normalizeAccountId_spec (s : String) (api : GraphApi) (tok : String)
    (p : Option Nat) (cid dp lv tr : Option String) :
    (¬ "act_".data.isPrefixOf s.data = true → normalizeAccountId s = "act_" ++ s) ∧
    ("act_".data.isPrefixOf s.data = true → normalizeAccountId s = s) ∧
    normalizeAccountId (normalizeAccountId s) = normalizeAccountId s ∧
    getCampaigns api tok (normalizeAccountId s) p = getCampaigns api tok s p ∧
    getAdSets api tok (normalizeAccountId s) cid p = getAdSets api tok s cid p ∧
    getSpend api tok (normalizeAccountId s) dp lv tr p = getSpend api tok s dp lv tr p ∧
    getLeads api tok (normalizeAccountId s) p = getLeads api tok s p := by
  have hpre : ∀ u : String, "act_".data.isPrefixOf ("act_" ++ u).data = true := by
    intro u
    rw [String.data_append]
    exact List.isPrefixOf_iff_prefix.mpr (List.prefix_append _ _)
  have hidem : normalizeAccountId (normalizeAccountId s) = normalizeAccountId s := by
    by_cases h : "act_".data.isPrefixOf s.data = true
    · simp [normalizeAccountId, h]
    · simp only [normalizeAccountId, if_neg h, hpre s, if_pos]
  refine ⟨fun h => by simp [normalizeAccountId, h], fun h => by simp [normalizeAccountId, h],
    hidem, ?_, ?_, ?_, ?_⟩
  · simp [getCampaigns, hidem]
  · simp [getAdSets, hidem]
  · simp [getSpend, hidem]
  · simp [getLeads, hidem]

/-- C6 witness: both normalization branches at concrete ids. -/
theorem normalizeAccountId_spec_witness :
    normalizeAccountId "123" = "act_" ++ "123" ∧ normalizeAccountId "act_7" = "act_7" :=
  ⟨(normalizeAccountId_spec "123" stubApi "t" none none none none none).1 (by decide),
   (normalizeAccountId_spec "act_7" stubApi "t" none none none none none).2.1 (by decide)⟩

/-- C7: when the long-lived exchange succeeds but returns no expires_in, the
stored and returned expiry is exactly now + 5184000 seconds (here in
milliseconds: now + 5184000 * 1000). -/
theorem oauthCallback_longLived_default_expiry
    (decode : String → Option String) (now : Int) (code state uid llTok : String)
    (tr ll : TokenRespData) (adAccounts : Except String (List String))
    (hcode : code ≠ "") (hstate : state ≠ "") (hdec : decode state = some uid)
    (hat : jsTruthyStr tr.access_token ≠ none)
    (hll : ll.access_token = some llTok) (hllne : llTok ≠ "") (hei : ll.expires_in = none) :
    ∃ stored,
      oauthCallback decode now none (some code) (some state) (.ok tr) (.ok ll) adAccounts =
        .ok stored uid (some (now + 5184000 * 1000)) ∧
      stored.expiresAt = some (now + 5184000 * 1000) := by
  obtain ⟨at0, hat0⟩ : ∃ a, jsTruthyStr tr.access_token = some a := by
    cases h : jsTruthyStr tr.access_token
    · exact absurd h hat
    · exact ⟨_, rfl⟩
  refine ⟨{ userId := uid, accessToken := llTok, expiresAt := some (now + 5184000 * 1000),
            tokenType := (jsTruthyStr tr.token_type).getD "Bearer",
            adAccountId := match adAccounts with
              | .error _ => none
              | .ok ids => ids.head? }, ?_, rfl⟩
  simp only [jsTruthyStr] at hat0
  simp [oauthCallback, jsTruthyStr, hcode, hstate, hdec, hat0,
    longLivedUpgrade, hll, hllne, hei]

/-- C7 witness: a concrete callback run with an expires_in-less long-lived
response. -/
theorem oauthCallback_longLived_default_expiry_witness :
    ∃ stored,
      oauthCallback (fun st => if st = "S" then some "u7" else none) 1000 none
        (some "C") (some "S")
        (.ok { access_token := some "short", expires_in := some 3600, token_type := some "bearer" })
        (.ok { access_token := some "long", expires_in := none, token_type := none })
        (.ok ["act_1"]) = .ok stored "u7" (some (1000 + 5184000 * 1000)) ∧
      stored.expiresAt = some (1000 + 5184000 * 1000) :=
  oauthCallback_longLived_default_expiry (fun st => if st = "S" then some "u7" else none)
    1000 "C" "S" "u7" "long"
    { access_token := some "short", expires_in := some 3600, token_type := some "bearer" }
    { access_token := some "long", expires_in := none, token_type := none }
    (.ok ["act_1"]) (by decide) (by decide) rfl (by decide) rfl (by decide) rfl

/-- C8: when the long-lived exchange throws, the callback still succeeds — it
upserts the short-lived access token with the expiry computed from the
original exchange and returns success. -/
theorem oauthCallback_longLived_failure_tolerated
    (decode : String → Option String) (now : Int) (code state uid accessTok e : String)
    (tr : TokenRespData) (adAccounts : Except String (List String))
    (hcode : code ≠ "") (hstate : state ≠ "") (hdec : decode state = some uid)
    (hat : jsTruthyStr tr.access_token = some accessTok) :
    ∃ stored,
      oauthCallback decode now none (some code) (some state) (.ok tr) (.error e) adAccounts =
        .ok stored uid (computeExpiresAt now tr.expires_in) ∧
      stored.accessToken = accessTok ∧
      stored.expiresAt = computeExpiresAt now tr.expires_in := by
  refine ⟨{ userId := uid, accessToken := accessTok,
            expiresAt := computeExpiresAt now tr.expires_in,
            tokenType := (jsTruthyStr tr.token_type).getD "Bearer",
            adAccountId := match adAccounts with
              | .error _ => none
              | .ok ids => ids.head? }, ?_, rfl, rfl⟩
  simp only [jsTruthyStr] at hat
  simp [oauthCallback, jsTruthyStr, hcode, hstate, hdec, hat, longLivedUpgrade]

/-- C8 witness: a concrete callback run whose long-lived exchange fails. -/
theorem oauthCallback_longLived_failure_tolerated_witness :
    ∃ stored,
      oauthCallback (fun st => if st = "S" then some "u8" else none) 2000 none
        (some "C") (some "S")
        (.ok { access_token := some "short", expires_in := some 3600, token_type := some "bearer" })
        (.error "exchange failed") (.error "no accounts") =
        .ok stored "u8" (computeExpiresAt 2000 (some 3600)) ∧
      stored.accessToken = "short" ∧
      stored.expiresAt = computeExpiresAt 2000 (some 3600) :=
  oauthCallback_longLived_failure_tolerated (fun st => if st = "S" then some "u8" else none)
    2000 "C" "S" "u8" "short" "exchange failed"
    { access_token := some "short", expires_in := some 3600, token_type := some "bearer" }
    (.error "no accounts") (by decide) (by decide) rfl rfl

/-- Helper: every lead tagged from one form carries that form's id and name. -/
theorem mem_tagLeadsOf (api : GraphApi) (tok : String) (form : GraphNode)
    (t : TaggedLead) (ht : t ∈ tagLeadsOf api tok form) :
    t.form_id = form.id ∧ t.form_name = form.name := by
  rw [tagLeadsOf] at ht
  split at ht
  · exact absurd ht (by simp)
  · split at ht
    · obtain ⟨l, -, hl⟩ := List.mem_map.mp ht
      rw [← hl]
      exact ⟨rfl, rfl⟩
    · exact absurd ht (by simp)

/-- Helper: a failed per-form fetch contributes no leads. -/
theorem tagLeadsOf_error (api : GraphApi) (tok : String) (form : GraphNode) (msg : String)
    (herr : api tok ("/" ++ form.id ++ "/leads")
      { fields := some "id,created_time,field_data", limit := some 10 } = .error msg) :
    tagLeadsOf api tok form = [] := by
  rw [tagLeadsOf, herr]

/-- Helper: getLeads flattens the tagged leads of the first five forms and
returns the forms listing's paging. -/
theorem getLeads_characterization (api : GraphApi) (tok acct : String) (p : Option Nat)
    (fr : GraphResponse) (forms : List GraphNode)
    (hfr : api tok ("/" ++ normalizeAccountId acct ++ "/leadgen_forms")
      { fields := some "id,name,status", limit := some (p.getD 25) } = .ok fr)
    (hforms : fr.data = some forms) :
    getLeads api tok acct p =
      .ok { data := (forms.take 5).flatMap (tagLeadsOf api tok), paging := fr.paging } := by
  rw [getLeads]
  dsimp only
  rw [hfr]
  dsimp only
  rw [hforms]
  dsimp only
  by_cases h : forms.length > 0
  · rw [if_pos h]
  · rw [if_neg h]
    have : forms = [] := List.length_eq_zero.mp (by omega)
    rw [this]
    rfl

/-- C2: the leads operation processes only the first 5 forms of the listing
(the result is the flattening over `forms.take 5`); every returned lead
carries its originating form's id and name; and a failed per-form fetch
contributes nothing while the request still succeeds with the other forms'
leads. -/
theorem getLeads_truncation_tagging_skip (api : GraphApi) (tok acct : String)
    (p : Option Nat) (fr : GraphResponse) (forms : List GraphNode)
    (hfr : api tok ("/" ++ normalizeAccountId acct ++ "/leadgen_forms")
      { fields := some "id,name,status", limit := some (p.getD 25) } = .ok fr)
    (hforms : fr.data = some forms) :
    getLeads api tok acct p =
      .ok { data := (forms.take 5).flatMap (tagLeadsOf api tok), paging := fr.paging } ∧
    (∀ t ∈ (forms.take 5).flatMap (tagLeadsOf api tok),
      ∃ form ∈ forms.take 5, t.form_id = form.id ∧ t.form_name = form.name) ∧
    (∀ form msg, api tok ("/" ++ form.id ++ "/leads")
        { fields := some "id,created_time,field_data", limit := some 10 } = .error msg →
      tagLeadsOf api tok form = []) := by
  refine ⟨getLeads_characterization api tok acct p fr forms hfr hforms, ?_, ?_⟩
  · intro t ht
    obtain ⟨form, hform, htf⟩ := List.mem_flatMap.mp ht
    exact ⟨form, hform, mem_tagLeadsOf api tok form t htf⟩
  · intro form msg herr
    exact tagLeadsOf_error api tok form msg herr

/-- Example form list: seven leadgen forms, as in the spec's example. -/
def exFormNode (s : String) : GraphNode :=
  { id := s, name := some ("name-" ++ s), created_time := none, field_data := none }

def forms7 : List GraphNode :=
  [exFormNode "f1", exFormNode "f2", exFormNode "f3", exFormNode "f4",
   exFormNode "f5", exFormNode "f6", exFormNode "f7"]

/-- Example upstream: the forms listing returns seven forms with paging "P";
the leads fetch for form f3 throws; every other leads fetch returns one
lead. -/
def leadsApiEx : GraphApi := fun _ endpoint ps =>
  if ps.fields = some "id,name,status" then
    .ok { data := some forms7, paging := some "P" }
  else if endpoint = "/f3/leads" then
    .error "boom"
  else
    .ok { data := some [{ id := "lead-of" ++ endpoint, name := none, created_time := none,
                          field_data := some "d" }],
          paging := none }

/-- C2 witness: over seven forms with form f3's fetch failing, the request
still succeeds with the flattened leads of the first five forms (f3
contributing nothing) and the forms listing's paging. -/
theorem getLeads_truncation_tagging_skip_witness :
    getLeads leadsApiEx "tk" "9" none =
      .ok { data := (forms7.take 5).flatMap (tagLeadsOf leadsApiEx "tk"), paging := some "P" } ∧
    tagLeadsOf leadsApiEx "tk" (exFormNode "f3") = [] :=
  ⟨(getLeads_truncation_tagging_skip leadsApiEx "tk" "9" none
      { data := some forms7, paging := some "P" } forms7 rfl rfl).1,
   (getLeads_truncation_tagging_skip leadsApiEx "tk" "9" none
      { data := some forms7, paging := some "P" } forms7 rfl rfl).2.2
     (exFormNode "f3") "boom" rfl⟩

/-- Helper: under an upstream that honors the hard-coded per-form limit of
10, one form contributes at most 10 leads. -/
theorem length_tagLeadsOf_le (api : GraphApi) (tok : String) (form : GraphNode)
    (hhonor : ∀ formId resp, api tok ("/" ++ formId ++ "/leads")
      { fields := some "id,created_time,field_data", limit := some 10 } = .ok resp →
      (resp.data.getD []).length ≤ 10) :
    (tagLeadsOf api tok form).length ≤ 10 := by
  rw [tagLeadsOf]
  split
  · simp
  next resp hresp =>
    have := hhonor form.id resp hresp
    split
    next ds hds =>
      rw [List.length_map]
      rw [hds] at this
      simpa using this
    · simp

/-- Helper: a flatMap whose pieces are each at most 10 long over at most
five forms has at most 50 elements. -/
theorem length_flatMap_le_50 (f : GraphNode → List TaggedLead) :
    ∀ (l : List GraphNode), (∀ x ∈ l, (f x).length ≤ 10) →
      ((l.take 5).flatMap f).length ≤ 50 := by
  have key : ∀ (l : List GraphNode), (∀ x ∈ l, (f x).length ≤ 10) →
      (l.flatMap f).length ≤ l.length * 10 := by
    intro l
    induction l with
    | nil => simp
    | cons x xs ih =>
      intro h
      rw [List.flatMap_cons, List.length_append, List.length_cons]
      have h1 := h x (by simp)
      have h2 := ih (fun y hy => h y (by simp [hy]))
      omega
  intro l h
  have h1 := key (l.take 5) (fun x hx => h x (List.mem_of_mem_take hx))
  have h2 : (l.take 5).length ≤ 5 := by
    rw [List.length_take]
    omega
  omega

/-- C10: the caller-supplied limit parameter reaches only the forms listing
(as `limit || 25`); each per-form leads fetch carries the hard-coded limit
10, so when the upstream honors that limit at most 50 leads are returned;
and the returned paging object is the forms listing's. -/
theorem getLeads_limit_shape (api : GraphApi) (tok acct : String) (p : Option Nat)
    (fr : GraphResponse)
    (hfr : api tok ("/" ++ normalizeAccountId acct ++ "/leadgen_forms")
      { fields := some "id,name,status", limit := some (p.getD 25) } = .ok fr)
    (hhonor : ∀ formId resp, api tok ("/" ++ formId ++ "/leads")
      { fields := some "id,created_time,field_data", limit := some 10 } = .ok resp →
      (resp.data.getD []).length ≤ 10) :
    ∃ leads, getLeads api tok acct p = .ok { data := leads, paging := fr.paging } ∧
      leads.length ≤ 50 := by
  cases hforms : fr.data with
  | none =>
    refine ⟨[], ?_, by simp⟩
    rw [getLeads]
    dsimp only
    rw [hfr]
    dsimp only
    rw [hforms]
  | some forms =>
    refine ⟨(forms.take 5).flatMap (tagLeadsOf api tok),
      getLeads_characterization api tok acct p fr forms hfr hforms, ?_⟩
    exact length_flatMap_le_50 (tagLeadsOf api tok) forms
      (fun form _ => length_tagLeadsOf_le api tok form hhonor)

/-- C10 witness: the example upstream honors the per-form limit, so the
example request returns at most 50 leads and the forms paging. -/
theorem getLeads_limit_shape_witness :
    ∃ leads, getLeads leadsApiEx "tk" "9" none = .ok { data := leads, paging := some "P" } ∧
      leads.length ≤ 50 :=
  getLeads_limit_shape leadsApiEx "tk" "9" none
    { data := some forms7, paging := some "P" } rfl
    (by
      intro formId resp h
      rw [leadsApiEx] at h
      rw [if_neg (by decide)] at h
      split at h
      · exact absurd h (by simp)
      · simp only [Except.ok.injEq] at h
        rw [← h]
        simp)

end CliqBackend
